import Mathlib

/-!
Verification development for the distributed commerce crawler core:
shallow embedding of `src/utils/proxy_pool.py`, `src/utils/monitor.py`,
`src/utils/anti_crawler.py` and the retry logic of
`src/ecommerce_spider/spiders/jd_spider.py`, with theorems settling the
specification claims about them.
-/

namespace Crawler

/-! ## Proxy pool (`src/utils/proxy_pool.py`)

A pool entry mirrors the dict
`{'proxy': ..., 'score': ..., 'last_used': ..., 'fail_count': ..., 'success_count': ...}`.
The score is an `Int` because `_check_all_proxies` stores `score - 20`
before testing `score <= 0`, so a transiently negative value exists in the
Python object before removal; timestamps are abstracted to `Option Nat`. -/

structure Candidate where
  proxy : String
  score : Int
  last_used : Option Nat
  fail_count : Nat
  success_count : Nat
deriving DecidableEq, Repr

/-- Python's `str.strip()`: drop whitespace from both ends, written over the
character list so that it evaluates by kernel reduction. -/
def pyStrip (s : String) : String :=
  String.mk (((s.data.dropWhile Char.isWhitespace).reverse.dropWhile
    Char.isWhitespace).reverse)

/-- Python's `str.startswith(pre)` as a prefix test on the character list. -/
def pyStartsWith (s pre : String) : Bool :=
  pre.data.isPrefixOf s.data

/-- One line of `_load_proxies_from_file`'s loop body: strip, drop blank and
`#`-comment lines, prefix `http://` when no scheme is present, and build the
initial entry with score 100 and zero counters. -/
def parseLine (line : String) : Option Candidate :=
  let l := pyStrip line
  if l ≠ "" ∧ pyStartsWith l "#" = false then
    let addr :=
      if pyStartsWith l "http://" = true ∨ pyStartsWith l "https://" = true then l
      else "http://" ++ l
    some ⟨addr, 100, none, 0, 0⟩
  else
    none

/-- The loop of `_load_proxies_from_file`, appending parsed entries to the
current `working_proxies` list one line at a time. -/
def loadLines (pool : List Candidate) : List String → List Candidate
  | [] => pool
  | line :: rest =>
    match parseLine line with
    | some c => loadLines (pool ++ [c]) rest
    | none => loadLines pool rest

/-- `_load_proxies_from_file` as a whole: the file read either yields lines or
raises; the surrounding `try/except` turns a raise into a logged error with the
pool left as it was, so the operation returns in both cases. `none` stands for
the missing/unreadable-file case. -/
def loadProxiesFromFile (file : Option (List String)) (pool : List Candidate) :
    List Candidate :=
  match file with
  | none => pool
  | some lines => loadLines pool lines

/-- `report_failure`: on the first entry matching the address, increment
`fail_count`, set `score := max (score - 15) 0`, and remove the entry when the
incremented `fail_count` exceeds 5. A falsy (empty) address is ignored, as is
an address not present in the pool. -/
def reportFailure (pool : List Candidate) (proxy : String) : List Candidate :=
  if proxy = "" then pool
  else go pool
where
  go : List Candidate → List Candidate
    | [] => []
    | c :: rest =>
      if c.proxy = proxy then
        let c' := { c with fail_count := c.fail_count + 1,
                           score := max (c.score - 15) 0 }
        if c'.fail_count > 5 then rest else c' :: rest
      else c :: go rest

/-- `report_success`: on the first entry matching the address, increment
`success_count` and set `score := min (score + 5) 100`. -/
def reportSuccess (pool : List Candidate) (proxy : String) : List Candidate :=
  if proxy = "" then pool
  else go pool
where
  go : List Candidate → List Candidate
    | [] => []
    | c :: rest =>
      if c.proxy = proxy then
        { c with success_count := c.success_count + 1,
                 score := min (c.score + 5) 100 } :: rest
      else c :: go rest

/-- One per-address update of `_check_all_proxies`, after `_check_proxy` came
back with `isWorking`: on success restore `min (score + 10) 100`, bump
`success_count` and reset `fail_count`; on failure subtract 20 from the score,
bump `fail_count`, and remove the entry when the new score is `≤ 0`.
The probe outcome itself is a network effect and is passed in. -/
def checkOne (pool : List Candidate) (proxy : String) (isWorking : Bool) :
    List Candidate :=
  match pool with
  | [] => []
  | c :: rest =>
    if c.proxy = proxy then
      if isWorking then
        { c with score := min (c.score + 10) 100,
                 success_count := c.success_count + 1,
                 fail_count := 0 } :: rest
      else
        let c' := { c with score := c.score - 20,
                           fail_count := c.fail_count + 1 }
        if c'.score ≤ 0 then rest else c' :: rest
    else c :: checkOne rest proxy isWorking

/-- The events that mutate `working_proxies`: the live-feedback reports, one
validation-probe update of a periodic `_check_all_proxies` round (the lock is
released between per-address updates, so a round is a sequence of these), and
one line of a `_load_proxies_from_file` reload. -/
inductive PoolEvent where
  | reportF (proxy : String)
  | reportS (proxy : String)
  | probe (proxy : String) (isWorking : Bool)
  | load (line : String)
deriving DecidableEq, Repr

def poolStep (pool : List Candidate) : PoolEvent → List Candidate
  | .reportF p => reportFailure pool p
  | .reportS p => reportSuccess pool p
  | .probe p ok => checkOne pool p ok
  | .load line => loadLines pool [line]

def runPool (pool : List Candidate) (evs : List PoolEvent) : List Candidate :=
  evs.foldl poolStep pool

/-- `sum(p['score'] for p in self.working_proxies)`. -/
def totalScore (pool : List Candidate) : Int :=
  (pool.map (·.score)).sum

/-- The weighted-selection walk of `get_working_proxy`: accumulate scores and
return the first entry whose running total reaches the drawn value
(`current >= rand` in the source). -/
def selectLoop : List Candidate → Int → ℚ → Option Candidate
  | [], _, _ => none
  | c :: rest, current, rand =>
    let cur := current + c.score
    if rand ≤ (cur : ℚ) then some c else selectLoop rest cur rand

/-- A default entry for modelling `random.choice`'s indexing; never an actual
selection result on the non-empty pools where the source reaches that call. -/
def dummyCandidate : Candidate := ⟨"", 0, none, 0, 0⟩

/-- `get_working_proxy`: `None` on an empty pool; uniform `random.choice` when
the total score is `≤ 0` (`choiceIdx` abstracts the uniform index draw); else
a weighted draw `rand ∈ [0, total_score]` resolved by the cumulative walk, with
the source's trailing `random.choice` fallthrough for a walk that returns
nothing. -/
def getWorkingProxy (pool : List Candidate) (rand : ℚ) (choiceIdx : Nat) :
    Option String :=
  match pool with
  | [] => none
  | c :: rest =>
    if totalScore (c :: rest) ≤ 0 then
      some ((c :: rest).getD (choiceIdx % (c :: rest).length) dummyCandidate).proxy
    else
      match selectLoop (c :: rest) 0 rand with
      | some chosen => some chosen.proxy
      | none =>
        some ((c :: rest).getD (choiceIdx % (c :: rest).length) dummyCandidate).proxy

/-! ## Score-range invariant -/

/-- Every entry of the pool carries a score in `[0, 100]`. -/
def scoreBounded (pool : List Candidate) : Prop :=
  ∀ c ∈ pool, 0 ≤ c.score ∧ c.score ≤ 100

theorem scoreBounded_nil : scoreBounded [] := by
  intro c hc
  cases hc

theorem scoreBounded_cons {c : Candidate} {l : List Candidate} :
    scoreBounded (c :: l) ↔ (0 ≤ c.score ∧ c.score ≤ 100) ∧ scoreBounded l := by
  simp [scoreBounded]

theorem scoreBounded_append {l₁ l₂ : List Candidate} :
    scoreBounded (l₁ ++ l₂) ↔ scoreBounded l₁ ∧ scoreBounded l₂ := by
  simp only [scoreBounded, List.mem_append, or_imp, forall_and]
  tauto

theorem parseLine_score {line : String} {c : Candidate}
    (h : parseLine line = some c) : c.score = 100 ∧ c.fail_count = 0 := by
  simp only [parseLine] at h
  split at h
  · simp only [Option.some.injEq] at h
    subst h
    exact ⟨rfl, rfl⟩
  · cases h

theorem scoreBounded_loadLines {pool : List Candidate}
    (h : scoreBounded pool) : ∀ lines, scoreBounded (loadLines pool lines) := by
  intro lines
  induction lines generalizing pool with
  | nil => exact h
  | cons line rest ih =>
    unfold loadLines
    cases hp : parseLine line with
    | none => exact ih h
    | some c =>
      apply ih
      rw [scoreBounded_append]
      refine ⟨h, ?_⟩
      intro d hd
      simp only [List.mem_singleton] at hd
      subst hd
      rw [(parseLine_score hp).1]
      exact ⟨by norm_num, le_refl _⟩

theorem scoreBounded_reportFailure_go (proxy : String) (pool : List Candidate)
    (h : scoreBounded pool) : scoreBounded (reportFailure.go proxy pool) := by
  induction pool with
  | nil => exact h
  | cons c rest ih =>
    rw [scoreBounded_cons] at h
    obtain ⟨⟨h0, h100⟩, hrest⟩ := h
    unfold reportFailure.go
    by_cases hp : c.proxy = proxy
    · rw [if_pos hp]
      by_cases hfc : c.fail_count + 1 > 5
      · simpa [hfc] using hrest
      · simp only [hfc, if_false]
        rw [scoreBounded_cons]
        exact ⟨⟨le_max_right _ _, max_le (by omega) (by norm_num)⟩, hrest⟩
    · rw [if_neg hp, scoreBounded_cons]
      exact ⟨⟨h0, h100⟩, ih hrest⟩

theorem scoreBounded_reportFailure {pool : List Candidate} (proxy : String)
    (h : scoreBounded pool) : scoreBounded (reportFailure pool proxy) := by
  unfold reportFailure
  split
  · exact h
  · exact scoreBounded_reportFailure_go proxy pool h

theorem scoreBounded_reportSuccess_go (proxy : String) (pool : List Candidate)
    (h : scoreBounded pool) : scoreBounded (reportSuccess.go proxy pool) := by
  induction pool with
  | nil => exact h
  | cons c rest ih =>
    rw [scoreBounded_cons] at h
    obtain ⟨⟨h0, h100⟩, hrest⟩ := h
    unfold reportSuccess.go
    by_cases hp : c.proxy = proxy
    · rw [if_pos hp, scoreBounded_cons]
      exact ⟨⟨le_min (by omega) (by norm_num), min_le_right _ _⟩, hrest⟩
    · rw [if_neg hp, scoreBounded_cons]
      exact ⟨⟨h0, h100⟩, ih hrest⟩

theorem scoreBounded_reportSuccess {pool : List Candidate} (proxy : String)
    (h : scoreBounded pool) : scoreBounded (reportSuccess pool proxy) := by
  unfold reportSuccess
  split
  · exact h
  · exact scoreBounded_reportSuccess_go proxy pool h

theorem scoreBounded_checkOne {pool : List Candidate} (proxy : String)
    (ok : Bool) (h : scoreBounded pool) :
    scoreBounded (checkOne pool proxy ok) := by
  induction pool with
  | nil => exact h
  | cons c rest ih =>
    rw [scoreBounded_cons] at h
    obtain ⟨⟨h0, h100⟩, hrest⟩ := h
    unfold checkOne
    by_cases hp : c.proxy = proxy
    · rw [if_pos hp]
      cases ok with
      | true =>
        simp only [if_true, scoreBounded_cons]
        exact ⟨⟨le_min (by omega) (by norm_num), min_le_right _ _⟩, hrest⟩
      | false =>
        simp only [Bool.false_eq_true, if_false]
        by_cases hs : c.score - 20 ≤ 0
        · simpa [hs] using hrest
        · simp only [hs, if_false]
          rw [scoreBounded_cons]
          refine ⟨⟨?_, ?_⟩, hrest⟩ <;> dsimp only <;> omega
    · rw [if_neg hp, scoreBounded_cons]
      exact ⟨⟨h0, h100⟩, ih hrest⟩

theorem scoreBounded_poolStep {pool : List Candidate} (e : PoolEvent)
    (h : scoreBounded pool) : scoreBounded (poolStep pool e) := by
  cases e with
  | reportF p => exact scoreBounded_reportFailure p h
  | reportS p => exact scoreBounded_reportSuccess p h
  | probe p ok => exact scoreBounded_checkOne p ok h
  | load line => exact scoreBounded_loadLines h [line]

theorem scoreBounded_runPool {pool : List Candidate} (evs : List PoolEvent)
    (h : scoreBounded pool) : scoreBounded (runPool pool evs) := by
  induction evs generalizing pool with
  | nil => exact h
  | cons e rest ih => exact ih (scoreBounded_poolStep e h)

/-- C1: starting from any pool loaded by `_load_proxies_from_file` (including
the failed-read case), after any finite sequence of `report_success` /
`report_failure` calls, validation-probe updates and reload lines, every
candidate still in the active set has a score in `[0, 100]`. -/
theorem C1_score_clamped (file : Option (List String)) (evs : List PoolEvent)
    (c : Candidate) (hc : c ∈ runPool (loadProxiesFromFile file []) evs) :
    0 ≤ c.score ∧ c.score ≤ 100 := by
  refine scoreBounded_runPool evs ?_ c hc
  cases file with
  | none => exact scoreBounded_nil
  | some lines => exact scoreBounded_loadLines scoreBounded_nil lines

/-- Witness for `C1_score_clamped` at a concrete load and event trace. -/
theorem C1_score_clamped_witness :
    0 ≤ (Candidate.mk "http://1.2.3.4:8080" 85 none 1 0).score ∧
      (Candidate.mk "http://1.2.3.4:8080" 85 none 1 0).score ≤ 100 :=
  C1_score_clamped (some ["1.2.3.4:8080"])
    [PoolEvent.reportF "http://1.2.3.4:8080"]
    (Candidate.mk "http://1.2.3.4:8080" 85 none 1 0) (by decide)

/-! ## Eviction behaviour -/

/-- No entry of the pool carries the address `p`. -/
def absentProxy (pool : List Candidate) (p : String) : Prop :=
  ∀ c ∈ pool, c.proxy ≠ p

/-- Whether a pool event is a reload line (the only event that adds entries). -/
def PoolEvent.isLoad : PoolEvent → Bool
  | .load _ => true
  | _ => false

theorem absentProxy_reportFailure_go {pool : List Candidate} {p : String}
    (q : String) (h : absentProxy pool p) :
    absentProxy (reportFailure.go q pool) p := by
  induction pool with
  | nil => exact h
  | cons c rest ih =>
    have hc := h c (List.mem_cons_self c rest)
    have hrest : absentProxy rest p := fun d hd => h d (List.mem_cons_of_mem c hd)
    unfold reportFailure.go
    by_cases hp : c.proxy = q
    · rw [if_pos hp]
      by_cases hfc : c.fail_count + 1 > 5
      · simpa [hfc] using hrest
      · simp only [hfc, if_false]
        intro d hd
        rcases List.mem_cons.mp hd with hd | hd
        · subst hd
          exact hc
        · exact hrest d hd
    · rw [if_neg hp]
      intro d hd
      rcases List.mem_cons.mp hd with hd | hd
      · subst hd
        exact hc
      · exact ih hrest d hd

theorem absentProxy_reportSuccess_go {pool : List Candidate} {p : String}
    (q : String) (h : absentProxy pool p) :
    absentProxy (reportSuccess.go q pool) p := by
  induction pool with
  | nil => exact h
  | cons c rest ih =>
    have hc := h c (List.mem_cons_self c rest)
    have hrest : absentProxy rest p := fun d hd => h d (List.mem_cons_of_mem c hd)
    unfold reportSuccess.go
    by_cases hp : c.proxy = q
    · rw [if_pos hp]
      intro d hd
      rcases List.mem_cons.mp hd with hd | hd
      · subst hd
        exact hc
      · exact hrest d hd
    · rw [if_neg hp]
      intro d hd
      rcases List.mem_cons.mp hd with hd | hd
      · subst hd
        exact hc
      · exact ih hrest d hd

theorem absentProxy_checkOne {pool : List Candidate} {p : String}
    (q : String) (ok : Bool) (h : absentProxy pool p) :
    absentProxy (checkOne pool q ok) p := by
  induction pool with
  | nil => exact h
  | cons c rest ih =>
    have hc := h c (List.mem_cons_self c rest)
    have hrest : absentProxy rest p := fun d hd => h d (List.mem_cons_of_mem c hd)
    unfold checkOne
    by_cases hp : c.proxy = q
    · rw [if_pos hp]
      cases ok with
      | true =>
        simp only [if_true]
        intro d hd
        rcases List.mem_cons.mp hd with hd | hd
        · subst hd
          exact hc
        · exact hrest d hd
      | false =>
        simp only [Bool.false_eq_true, if_false]
        by_cases hs : c.score - 20 ≤ 0
        · simpa [hs] using hrest
        · simp only [hs, if_false]
          intro d hd
          rcases List.mem_cons.mp hd with hd | hd
          · subst hd
            exact hc
          · exact hrest d hd
    · rw [if_neg hp]
      intro d hd
      rcases List.mem_cons.mp hd with hd | hd
      · subst hd
        exact hc
      · exact ih hrest d hd

theorem absentProxy_poolStep {pool : List Candidate} {p : String}
    {e : PoolEvent} (he : e.isLoad = false) (h : absentProxy pool p) :
    absentProxy (poolStep pool e) p := by
  cases e with
  | reportF q =>
    simp only [poolStep, reportFailure]
    split
    · exact h
    · exact absentProxy_reportFailure_go q h
  | reportS q =>
    simp only [poolStep, reportSuccess]
    split
    · exact h
    · exact absentProxy_reportSuccess_go q h
  | probe q ok => exact absentProxy_checkOne q ok h
  | load line => cases he

theorem absentProxy_runPool {pool : List Candidate} {p : String}
    {evs : List PoolEvent} (he : ∀ e ∈ evs, e.isLoad = false)
    (h : absentProxy pool p) : absentProxy (runPool pool evs) p := by
  induction evs generalizing pool with
  | nil => exact h
  | cons e rest ih =>
    exact ih (fun e' he' => he e' (List.mem_cons_of_mem e he'))
      (absentProxy_poolStep (he e (List.mem_cons_self e rest)) h)

theorem getD_mem {l : List Candidate} {i : Nat} {d : Candidate}
    (h : i < l.length) : l.getD i d ∈ l := by
  rw [List.getD_eq_getElem l d h]
  exact List.getElem_mem h

theorem selectLoop_mem {pool : List Candidate} {cur : Int} {r : ℚ}
    {c : Candidate} (h : selectLoop pool cur r = some c) : c ∈ pool := by
  induction pool generalizing cur with
  | nil => cases h
  | cons d rest ih =>
    simp only [selectLoop] at h
    split at h
    · exact List.mem_cons.mpr (Or.inl (Option.some.inj h).symm)
    · exact List.mem_cons_of_mem d (ih h)

/-- Whatever `get_working_proxy` returns is the address of a pool entry. -/
theorem getWorkingProxy_mem {pool : List Candidate} {r : ℚ} {i : Nat}
    {q : String} (h : getWorkingProxy pool r i = some q) :
    ∃ c ∈ pool, c.proxy = q := by
  match pool with
  | [] => cases h
  | c :: rest =>
    simp only [getWorkingProxy] at h
    have hlen : i % (c :: rest).length < (c :: rest).length :=
      Nat.mod_lt _ (by simp)
    split at h
    · exact ⟨_, getD_mem hlen, Option.some.inj h⟩
    · split at h
      next chosen hsel =>
        exact ⟨chosen, selectLoop_mem hsel, Option.some.inj h⟩
      next => exact ⟨_, getD_mem hlen, Option.some.inj h⟩

/-- `report_failure` on the first matching entry removes it outright when its
`fail_count` already sits at the ceiling. -/
theorem reportFailure_evicts {p : String} (hp : p ≠ "")
    (l₁ : List Candidate) (c : Candidate) (l₂ : List Candidate)
    (h₁ : ∀ d ∈ l₁, d.proxy ≠ p) (h₂ : c.proxy = p) (h₃ : 5 ≤ c.fail_count) :
    reportFailure (l₁ ++ c :: l₂) p = l₁ ++ l₂ := by
  unfold reportFailure
  rw [if_neg hp]
  induction l₁ with
  | nil =>
    rw [List.nil_append, List.nil_append]
    unfold reportFailure.go
    rw [if_pos h₂]
    dsimp only
    rw [if_pos (show c.fail_count + 1 > 5 by omega)]
  | cons d l₁' ih =>
    rw [List.cons_append, List.cons_append]
    unfold reportFailure.go
    rw [if_neg (h₁ d (List.mem_cons_self d l₁'))]
    exact congrArg (d :: ·) (ih fun d' hd' => h₁ d' (List.mem_cons_of_mem d hd'))

/-- C2 counterexample: from a freshly loaded single-proxy pool, four failed
validation probes, one successful probe and two failure reports leave the
candidate at score 0 — clamped, not evicted — and `get_working_proxy` still
returns it. -/
theorem C2_eviction_counterexample :
    runPool (loadProxiesFromFile (some ["1.2.3.4:8080"]) [])
        [PoolEvent.probe "http://1.2.3.4:8080" false,
         PoolEvent.probe "http://1.2.3.4:8080" false,
         PoolEvent.probe "http://1.2.3.4:8080" false,
         PoolEvent.probe "http://1.2.3.4:8080" false,
         PoolEvent.probe "http://1.2.3.4:8080" true,
         PoolEvent.reportF "http://1.2.3.4:8080",
         PoolEvent.reportF "http://1.2.3.4:8080"] =
      [Candidate.mk "http://1.2.3.4:8080" 0 none 2 1] ∧
    getWorkingProxy [Candidate.mk "http://1.2.3.4:8080" 0 none 2 1] 0 0 =
      some "http://1.2.3.4:8080" := by
  constructor
  · decide
  · decide

/-- C2 amended: on the report path eviction is driven by `fail_count` alone —
a failure report finding the candidate already at the ceiling (`fail_count ≥ 5`)
removes it — and an absent candidate is never re-added nor returned by
`get_working_proxy` under any further report/probe events (only a reload line
re-adds entries); a failure report that merely drives the score to 0 clamps it
there without evicting (see the counterexample). -/
theorem C2_eviction_amended {p : String} (hp : p ≠ "")
    (l₁ : List Candidate) (c : Candidate) (l₂ : List Candidate)
    (h₁ : ∀ d ∈ l₁, d.proxy ≠ p) (h₂ : c.proxy = p) (h₃ : 5 ≤ c.fail_count)
    (pool : List Candidate) (hpool : absentProxy pool p)
    (evs : List PoolEvent) (hevs : ∀ e ∈ evs, e.isLoad = false) :
    reportFailure (l₁ ++ c :: l₂) p = l₁ ++ l₂ ∧
    absentProxy (runPool pool evs) p ∧
    ∀ (r : ℚ) (i : Nat), getWorkingProxy (runPool pool evs) r i ≠ some p := by
  refine ⟨reportFailure_evicts hp l₁ c l₂ h₁ h₂ h₃,
    absentProxy_runPool hevs hpool, ?_⟩
  intro r i hcontra
  obtain ⟨d, hd, hdp⟩ := getWorkingProxy_mem hcontra
  exact absentProxy_runPool hevs hpool d hd hdp

/-- Witness for `C2_eviction_amended` at a concrete candidate and trace. -/
theorem C2_eviction_amended_witness :
    reportFailure [Candidate.mk "http://a" 40 none 5 0] "http://a" = [] ∧
    absentProxy (runPool [Candidate.mk "http://b" 70 none 0 0]
      [PoolEvent.reportS "http://b"]) "http://a" ∧
    ∀ (r : ℚ) (i : Nat),
      getWorkingProxy (runPool [Candidate.mk "http://b" 70 none 0 0]
        [PoolEvent.reportS "http://b"]) r i ≠ some "http://a" := by
  have h := C2_eviction_amended (p := "http://a") (by decide)
    [] (Candidate.mk "http://a" 40 none 5 0) [] (by intro d hd; cases hd)
    (by decide) (by decide) [Candidate.mk "http://b" 70 none 0 0]
    (by intro c hc; rw [List.mem_singleton] at hc; subst hc; decide)
    [PoolEvent.reportS "http://b"] (by decide)
  simpa using h

/-! ## Weighted selection -/

/-- Sum of the scores of the first `k` entries: the cumulative value the
selection walk has reached just before considering entry `k`. -/
def cumScore (pool : List Candidate) (k : Nat) : Int :=
  ((pool.take k).map (·.score)).sum

theorem cumScore_zero (pool : List Candidate) : cumScore pool 0 = 0 := rfl

theorem cumScore_cons (c : Candidate) (rest : List Candidate) (k : Nat) :
    cumScore (c :: rest) (k + 1) = c.score + cumScore rest k := by
  simp [cumScore, List.take_succ_cons]

theorem cumScore_nonneg {pool : List Candidate} (k : Nat)
    (h : ∀ c ∈ pool, 0 ≤ c.score) : 0 ≤ cumScore pool k := by
  apply List.sum_nonneg
  intro x hx
  simp only [cumScore, List.mem_map] at hx
  obtain ⟨c, hc, hx⟩ := hx
  rw [← hx]
  exact h c (List.take_subset k pool hc)

theorem cumScore_succ {pool : List Candidate} {k : Nat} (hk : k < pool.length) :
    cumScore pool (k + 1) =
      cumScore pool k + (pool.getD k dummyCandidate).score := by
  induction pool generalizing k with
  | nil => cases hk
  | cons c rest ih =>
    cases k with
    | zero => simp [cumScore_cons, cumScore_zero, List.getD]
    | succ j =>
      have hj : j < rest.length := by simpa using hk
      rw [cumScore_cons, cumScore_cons, ih hj]
      simp [List.getD_cons_succ]
      ring

/-- The cumulative walk lands on entry `k` exactly when the drawn value lies in
the half-open score interval of entry `k` (scores to the left nonnegative so
the walk cannot stop early). -/
theorem selectLoop_interval {pool : List Candidate} (cur : Int) (r : ℚ)
    (k : Nat) (hk : k < pool.length) (hpos : ∀ c ∈ pool, 0 ≤ c.score)
    (hlo : ((cur + cumScore pool k : Int) : ℚ) < r)
    (hhi : r ≤ ((cur + cumScore pool (k + 1) : Int) : ℚ)) :
    selectLoop pool cur r = some (pool.getD k dummyCandidate) := by
  induction pool generalizing cur k with
  | nil => cases hk
  | cons c rest ih =>
    have hc0 : (0 : Int) ≤ c.score := hpos c (List.mem_cons_self c rest)
    have hrest : ∀ d ∈ rest, 0 ≤ d.score :=
      fun d hd => hpos d (List.mem_cons_of_mem c hd)
    cases k with
    | zero =>
      rw [cumScore_zero] at hlo
      rw [cumScore_cons, cumScore_zero] at hhi
      simp only [selectLoop]
      rw [if_pos (by push_cast at hhi ⊢; linarith)]
      rfl
    | succ j =>
      have hj : j < rest.length := by simpa using hk
      rw [cumScore_cons] at hlo hhi
      have hskip : ¬ r ≤ ((cur + c.score : Int) : ℚ) := by
        have h0 : (0 : Int) ≤ cumScore rest j := cumScore_nonneg j hrest
        have h0q : (0 : ℚ) ≤ ((cumScore rest j : Int) : ℚ) := by
          exact_mod_cast h0
        push_cast at hlo ⊢
        intro hcon
        linarith
      simp only [selectLoop]
      rw [if_neg hskip]
      rw [List.getD_cons_succ]
      apply ih (cur + c.score) j hj hrest
      · push_cast at hlo ⊢
        linarith
      · push_cast at hhi ⊢
        linarith

theorem getWorkingProxy_isSome {pool : List Candidate} (r : ℚ) (i : Nat)
    (h : pool ≠ []) : (getWorkingProxy pool r i).isSome := by
  match pool with
  | [] => exact absurd rfl h
  | c :: rest =>
    simp only [getWorkingProxy]
    split
    · rfl
    · split <;> rfl

/-- C3: `get_working_proxy` returns the no-proxy sentinel `None` exactly on an
empty active set; on a non-empty set it always returns the address of some
active candidate (a total function — no exception, no blocking); and under the
uniform draw `rand ∈ [0, total_score]` the preimage selecting entry `k` is the
interval `(cumScore k, cumScore (k+1)]`, whose width is exactly entry `k`'s
score — selection probability proportional to score. -/
theorem C3_weighted_selection (pool : List Candidate) (r : ℚ) (i : Nat) :
    (getWorkingProxy [] r i = none) ∧
    (pool ≠ [] → ∃ c ∈ pool, getWorkingProxy pool r i = some c.proxy) ∧
    (∀ k, k < pool.length → (∀ c ∈ pool, 0 ≤ c.score) → 0 < totalScore pool →
      cumScore pool (k + 1) - cumScore pool k =
        (pool.getD k dummyCandidate).score ∧
      (((cumScore pool k : Int) : ℚ) < r →
        r ≤ ((cumScore pool (k + 1) : Int) : ℚ) →
        getWorkingProxy pool r i = some (pool.getD k dummyCandidate).proxy)) := by
  refine ⟨rfl, ?_, ?_⟩
  · intro hne
    have hs := getWorkingProxy_isSome r i hne
    obtain ⟨q, hq⟩ := Option.isSome_iff_exists.mp hs
    obtain ⟨c, hc, hcq⟩ := getWorkingProxy_mem hq
    exact ⟨c, hc, by rw [hq, hcq]⟩
  · intro k hk hpos htot
    refine ⟨by rw [cumScore_succ hk]; ring, ?_⟩
    intro hlo hhi
    have hsel : selectLoop pool 0 r = some (pool.getD k dummyCandidate) := by
      have := selectLoop_interval 0 r k hk hpos
        (by simpa using hlo) (by simpa using hhi)
      simpa using this
    match pool, hk with
    | c :: rest, _ =>
      simp only [getWorkingProxy]
      rw [if_neg (by omega), hsel]

/-- Witness for `C3_weighted_selection`: with scores 90 and 10 a draw of 95
falls in the second candidate's interval `(90, 100]` and selects it. -/
theorem C3_weighted_selection_witness :
    (getWorkingProxy [] 95 0 = none) ∧
    (∃ c ∈ [Candidate.mk "http://a" 90 none 0 0,
            Candidate.mk "http://b" 10 none 0 0],
      getWorkingProxy [Candidate.mk "http://a" 90 none 0 0,
        Candidate.mk "http://b" 10 none 0 0] 95 0 = some c.proxy) ∧
    getWorkingProxy [Candidate.mk "http://a" 90 none 0 0,
        Candidate.mk "http://b" 10 none 0 0] 95 0 = some "http://b" := by
  have h := C3_weighted_selection
    [Candidate.mk "http://a" 90 none 0 0, Candidate.mk "http://b" 10 none 0 0]
    95 0
  refine ⟨h.1, h.2.1 (by decide), ?_⟩
  have h2 := (h.2.2 1 (by decide) (by decide) (by decide)).2
    (by norm_num [cumScore]) (by norm_num [cumScore])
  simpa using h2

/-! ## Scoring deltas: live reports vs validation probes -/

theorem reportFailure_go_append {p : String} {l₁ : List Candidate}
    (rest : List Candidate) (h₁ : ∀ d ∈ l₁, d.proxy ≠ p) :
    reportFailure.go p (l₁ ++ rest) = l₁ ++ reportFailure.go p rest := by
  induction l₁ with
  | nil => rfl
  | cons d l₁' ih =>
    rw [List.cons_append]
    simp only [reportFailure.go]
    rw [if_neg (h₁ d (List.mem_cons_self d l₁'))]
    rw [List.cons_append]
    rw [ih fun d' hd' => h₁ d' (List.mem_cons_of_mem d hd')]

theorem reportSuccess_go_append {p : String} {l₁ : List Candidate}
    (rest : List Candidate) (h₁ : ∀ d ∈ l₁, d.proxy ≠ p) :
    reportSuccess.go p (l₁ ++ rest) = l₁ ++ reportSuccess.go p rest := by
  induction l₁ with
  | nil => rfl
  | cons d l₁' ih =>
    rw [List.cons_append]
    simp only [reportSuccess.go]
    rw [if_neg (h₁ d (List.mem_cons_self d l₁'))]
    rw [List.cons_append]
    rw [ih fun d' hd' => h₁ d' (List.mem_cons_of_mem d hd')]

theorem checkOne_append {p : String} {ok : Bool} {l₁ : List Candidate}
    (rest : List Candidate) (h₁ : ∀ d ∈ l₁, d.proxy ≠ p) :
    checkOne (l₁ ++ rest) p ok = l₁ ++ checkOne rest p ok := by
  induction l₁ with
  | nil => rfl
  | cons d l₁' ih =>
    rw [List.cons_append]
    simp only [checkOne]
    rw [if_neg (h₁ d (List.mem_cons_self d l₁'))]
    rw [List.cons_append]
    rw [ih fun d' hd' => h₁ d' (List.mem_cons_of_mem d hd')]

/-- C4 counterexample: on a freshly loaded candidate (score 100), a failure
report lands at 85 (−15) while a failed validation probe lands at 80 (−20);
from 80, a success report lands at 85 (+5) while a successful probe lands at
90 (+10, and resets `fail_count`). The live-report deltas are not the
validation deltas. -/
theorem C4_delta_counterexample :
    reportFailure (loadProxiesFromFile (some ["1.2.3.4:8080"]) [])
        "http://1.2.3.4:8080" =
      [Candidate.mk "http://1.2.3.4:8080" 85 none 1 0] ∧
    checkOne (loadProxiesFromFile (some ["1.2.3.4:8080"]) [])
        "http://1.2.3.4:8080" false =
      [Candidate.mk "http://1.2.3.4:8080" 80 none 1 0] ∧
    reportSuccess [Candidate.mk "http://1.2.3.4:8080" 80 none 1 0]
        "http://1.2.3.4:8080" =
      [Candidate.mk "http://1.2.3.4:8080" 85 none 1 1] ∧
    checkOne [Candidate.mk "http://1.2.3.4:8080" 80 none 1 0]
        "http://1.2.3.4:8080" true =
      [Candidate.mk "http://1.2.3.4:8080" 90 none 0 1] := by
  refine ⟨?_, ?_, ?_, ?_⟩ <;> decide

/-- C4 amended: the live-feedback deltas are strictly smaller than the
validation deltas. On the first entry matching the address, `report_failure`
sets `score := max (score − 15) 0` (evicting only past the fail ceiling),
while a failed probe sets `score := score − 20` unclamped and evicts at ≤ 0;
`report_success` sets `score := min (score + 5) 100`, while a successful probe
sets `score := min (score + 10) 100` and additionally resets `fail_count`. -/
theorem C4_delta_amended {p : String} (hp : p ≠ "")
    (l₁ : List Candidate) (c : Candidate) (l₂ : List Candidate)
    (h₁ : ∀ d ∈ l₁, d.proxy ≠ p) (h₂ : c.proxy = p) :
    (c.fail_count + 1 ≤ 5 →
      reportFailure (l₁ ++ c :: l₂) p =
        l₁ ++ { c with fail_count := c.fail_count + 1,
                       score := max (c.score - 15) 0 } :: l₂) ∧
    (reportSuccess (l₁ ++ c :: l₂) p =
      l₁ ++ { c with success_count := c.success_count + 1,
                     score := min (c.score + 5) 100 } :: l₂) ∧
    (checkOne (l₁ ++ c :: l₂) p true =
      l₁ ++ { c with score := min (c.score + 10) 100,
                     success_count := c.success_count + 1,
                     fail_count := 0 } :: l₂) ∧
    (0 < c.score - 20 →
      checkOne (l₁ ++ c :: l₂) p false =
        l₁ ++ { c with score := c.score - 20,
                       fail_count := c.fail_count + 1 } :: l₂) ∧
    (c.score - 20 ≤ 0 → checkOne (l₁ ++ c :: l₂) p false = l₁ ++ l₂) := by
  refine ⟨?_, ?_, ?_, ?_, ?_⟩
  · intro hfc
    unfold reportFailure
    rw [if_neg hp, reportFailure_go_append (c :: l₂) h₁]
    unfold reportFailure.go
    rw [if_pos h₂]
    dsimp only
    rw [if_neg (by omega)]
  · unfold reportSuccess
    rw [if_neg hp, reportSuccess_go_append (c :: l₂) h₁]
    unfold reportSuccess.go
    rw [if_pos h₂]
  · rw [checkOne_append (c :: l₂) h₁]
    unfold checkOne
    rw [if_pos h₂, if_pos rfl]
  · intro hs
    rw [checkOne_append (c :: l₂) h₁]
    unfold checkOne
    rw [if_pos h₂]
    dsimp only
    rw [if_neg (by simp), if_neg (by omega)]
  · intro hs
    rw [checkOne_append (c :: l₂) h₁]
    unfold checkOne
    rw [if_pos h₂]
    dsimp only
    rw [if_neg (by simp), if_pos (by omega)]

/-- Witness for `C4_delta_amended` on a concrete mid-range candidate. -/
theorem C4_delta_amended_witness :
    ((Candidate.mk "http://a" 50 none 1 2).fail_count + 1 ≤ 5 →
      reportFailure [Candidate.mk "http://a" 50 none 1 2] "http://a" =
        [Candidate.mk "http://a" 35 none 2 2]) ∧
    (reportSuccess [Candidate.mk "http://a" 50 none 1 2] "http://a" =
      [Candidate.mk "http://a" 55 none 1 3]) ∧
    (checkOne [Candidate.mk "http://a" 50 none 1 2] "http://a" true =
      [Candidate.mk "http://a" 60 none 0 3]) ∧
    (0 < (Candidate.mk "http://a" 50 none 1 2).score - 20 →
      checkOne [Candidate.mk "http://a" 50 none 1 2] "http://a" false =
        [Candidate.mk "http://a" 30 none 2 2]) ∧
    ((Candidate.mk "http://a" 50 none 1 2).score - 20 ≤ 0 →
      checkOne [Candidate.mk "http://a" 50 none 1 2] "http://a" false = []) := by
  have h := C4_delta_amended (p := "http://a") (by decide)
    [] (Candidate.mk "http://a" 50 none 1 2) [] (by intro d hd; cases hd) rfl
  simpa using h

/-! ## Retry policy (`JDSpider.handle_error`, jd_spider.py)

`handle_error` reads `retry_times` from the request meta and the configured
maximum, classifies the failure by the response status (or its absence), and
either re-enqueues a copy with `retry_times + 1` — rotating proxy, session id
and device id on block statuses — or logs and gives up. The computed delay is
`(2 ** r) * 2 + uniform(1, 3)` for block statuses, `1.5 ** r + random()` for
server errors, `uniform(1, 2)` for other statuses, and
`1.5 ** r + uniform(0.5, 1.5)` for no-response network errors; `parse_search`'s
exception retry uses the server-error shape `1.5 ** r + random()`. -/

inductive FailureKind where
  | httpStatus (code : Nat)
  | network
deriving DecidableEq, Repr

/-- `status_code in [403, 429, 401]`. -/
def isBlockStatus (code : Nat) : Bool :=
  code == 403 || code == 429 || code == 401

/-- `status_code in [500, 502, 503, 408]`. -/
def isServerStatus (code : Nat) : Bool :=
  code == 500 || code == 502 || code == 503 || code == 408

/-- What `handle_error` does besides sleeping: whether a retry request is
issued, the `retry_times` it carries, and whether identity (session id +
device id) and proxy binding were rotated first. -/
structure RetryOutcome where
  reenqueue : Bool
  retry_times : Nat
  rotateIdentity : Bool
  rotateProxy : Bool
deriving DecidableEq, Repr

def handleError (retryTimes maxRetries : Nat) (kind : FailureKind) :
    RetryOutcome :=
  if retryTimes < maxRetries then
    match kind with
    | .httpStatus code =>
      if isBlockStatus code then
        ⟨true, retryTimes + 1, true, true⟩
      else
        ⟨true, retryTimes + 1, false, false⟩
    | .network => ⟨true, retryTimes + 1, false, false⟩
  else
    ⟨false, retryTimes, false, false⟩

/-- The computed retry delay as a function of the failure class, the current
`retry_times` and the jitter draw `j`. -/
def backoffDelay (kind : FailureKind) (retryTimes : Nat) (j : ℚ) : ℚ :=
  match kind with
  | .httpStatus code =>
    if isBlockStatus code then 2 ^ retryTimes * 2 + j
    else if isServerStatus code then (3 / 2) ^ retryTimes + j
    else j
  | .network => (3 / 2) ^ retryTimes + j

/-- The interval the jitter draw is taken from, per failure class:
`uniform(1, 3)`, `random() ∈ [0, 1)`, `uniform(1, 2)`, `uniform(0.5, 1.5)`. -/
def jitterRange (kind : FailureKind) : ℚ × ℚ :=
  match kind with
  | .httpStatus code =>
    if isBlockStatus code then (1, 3)
    else if isServerStatus code then (0, 1)
    else (1, 2)
  | .network => (1 / 2, 3 / 2)

/-- The delay with the jitter averaged out (replaced by its interval mean). -/
def expectedDelay (kind : FailureKind) (retryTimes : Nat) : ℚ :=
  backoffDelay kind retryTimes
    (((jitterRange kind).1 + (jitterRange kind).2) / 2)

/-- The retry delay of `parse_search`'s exception handler:
`1.5 ** retry_times + random()`. -/
def parseSearchRetryDelay (retryTimes : Nat) (j : ℚ) : ℚ :=
  (3 / 2) ^ retryTimes + j

/-- C5: when `retry_times` has reached the configured maximum, `handle_error`
only logs — no retry request is issued and nothing is rotated; when
`retry_times = max − 1` and the failure carries HTTP 403, exactly one retry is
re-enqueued carrying `retry_times = max`, with the session id, device id and
proxy binding all rotated. -/
theorem C5_retry_decision (maxRetries retryTimes : Nat) (kind : FailureKind)
    (hmax : 1 ≤ maxRetries) :
    (maxRetries ≤ retryTimes →
      handleError retryTimes maxRetries kind =
        ⟨false, retryTimes, false, false⟩) ∧
    handleError (maxRetries - 1) maxRetries (FailureKind.httpStatus 403) =
      ⟨true, maxRetries, true, true⟩ := by
  constructor
  · intro hge
    unfold handleError
    rw [if_neg (by omega)]
  · unfold handleError
    rw [if_pos (by omega)]
    dsimp only
    rw [if_pos (show isBlockStatus 403 = true from rfl)]
    simp only [RetryOutcome.mk.injEq]
    refine ⟨trivial, by omega, trivial, trivial⟩

/-- Witness for `C5_retry_decision` with the jd spider's configured maximum
of 6 retries. -/
theorem C5_retry_decision_witness :
    (6 ≤ 7 → handleError 7 6 FailureKind.network = ⟨false, 7, false, false⟩) ∧
    handleError 5 6 (FailureKind.httpStatus 403) = ⟨true, 6, true, true⟩ :=
  C5_retry_decision 6 7 FailureKind.network (by decide)

/-- C6: for every failure class, the expected backoff delay (jitter replaced
by its interval mean) is non-decreasing in `retry_times`; every class draws
its jitter from an interval of positive width, and the computed delay is
strictly increasing in the draw — the delay genuinely depends on the random
component. The same holds for `parse_search`'s retry delay. -/
theorem C6_backoff_monotone (kind : FailureKind) (r : Nat) :
    expectedDelay kind r ≤ expectedDelay kind (r + 1) ∧
    (jitterRange kind).1 < (jitterRange kind).2 ∧
    (∀ j₁ j₂ : ℚ, j₁ < j₂ → backoffDelay kind r j₁ < backoffDelay kind r j₂) ∧
    (∀ j : ℚ, parseSearchRetryDelay r j ≤ parseSearchRetryDelay (r + 1) j) ∧
    (∀ j₁ j₂ : ℚ, j₁ < j₂ →
      parseSearchRetryDelay r j₁ < parseSearchRetryDelay r j₂) := by
  have h2 : (2 : ℚ) ^ r ≤ 2 ^ (r + 1) :=
    pow_le_pow_right₀ (by norm_num) (Nat.le_succ r)
  have h32 : ((3 : ℚ) / 2) ^ r ≤ (3 / 2) ^ (r + 1) :=
    pow_le_pow_right₀ (by norm_num) (Nat.le_succ r)
  refine ⟨?_, ?_, ?_, ?_, ?_⟩
  · cases kind with
    | httpStatus code =>
      rcases Bool.eq_false_or_eq_true (isBlockStatus code) with hb | hb
      · simp only [expectedDelay, backoffDelay, jitterRange, hb, if_true]
        linarith
      · rcases Bool.eq_false_or_eq_true (isServerStatus code) with hs | hs
        · simp only [expectedDelay, backoffDelay, jitterRange, hb, hs,
            Bool.false_eq_true, if_false, if_true]
          linarith
        · simp [expectedDelay, backoffDelay, jitterRange, hb, hs]
    | network =>
      simp only [expectedDelay, backoffDelay, jitterRange]
      linarith
  · cases kind with
    | httpStatus code =>
      rcases Bool.eq_false_or_eq_true (isBlockStatus code) with hb | hb
      · simp only [jitterRange, hb, if_true]
        norm_num
      · rcases Bool.eq_false_or_eq_true (isServerStatus code) with hs | hs
        · simp only [jitterRange, hb, hs, Bool.false_eq_true, if_false,
            if_true]
          norm_num
        · simp only [jitterRange, hb, hs, Bool.false_eq_true, if_false]
          norm_num
    | network =>
      simp only [jitterRange]
      norm_num
  · intro j₁ j₂ hj
    cases kind with
    | httpStatus code =>
      rcases Bool.eq_false_or_eq_true (isBlockStatus code) with hb | hb
      · simp only [backoffDelay, hb, if_true]
        linarith
      · rcases Bool.eq_false_or_eq_true (isServerStatus code) with hs | hs
        · simp only [backoffDelay, hb, hs, Bool.false_eq_true, if_false,
            if_true]
          linarith
        · simpa [backoffDelay, hb, hs] using hj
    | network =>
      simp only [backoffDelay]
      linarith
  · intro j
    simp only [parseSearchRetryDelay]
    linarith
  · intro j₁ j₂ hj
    simp only [parseSearchRetryDelay]
    linarith

/-- Witness for `C6_backoff_monotone` at the server-error class and a
concrete pair of draws. -/
theorem C6_backoff_monotone_witness :
    expectedDelay (FailureKind.httpStatus 503) 2 ≤
      expectedDelay (FailureKind.httpStatus 503) 3 ∧
    (jitterRange (FailureKind.httpStatus 503)).1 <
      (jitterRange (FailureKind.httpStatus 503)).2 ∧
    backoffDelay (FailureKind.httpStatus 503) 2 0 <
      backoffDelay (FailureKind.httpStatus 503) 2 (1 / 2) ∧
    parseSearchRetryDelay 2 (1 / 2) ≤ parseSearchRetryDelay 3 (1 / 2) ∧
    parseSearchRetryDelay 2 0 < parseSearchRetryDelay 2 (1 / 2) := by
  have h := C6_backoff_monotone (FailureKind.httpStatus 503) 2
  exact ⟨h.1, h.2.1, h.2.2.1 0 (1 / 2) (by norm_num),
    h.2.2.2.1 (1 / 2), h.2.2.2.2 0 (1 / 2) (by norm_num)⟩

/-! ## Monitor statistics (`src/utils/monitor.py`)

`SpiderMonitor.__init__` zeroes a global counter triple, one per-spider triple
for each of `taobao`/`jd`/`pdd`, and per-item-kind counters;
`update_request_stats` bumps the global counters and, when the spider name is
one of the tracked keys, that spider's triple. Worker-node bookkeeping and the
Redis writes are I/O on the side of these counters and carry no further
counter state. -/

structure SpiderCounters where
  requests : Nat
  success : Nat
  fail : Nat
deriving DecidableEq, Repr

structure Stats where
  total_requests : Nat
  success_requests : Nat
  failed_requests : Nat
  taobao : SpiderCounters
  jd : SpiderCounters
  pdd : SpiderCounters
  product : Nat
  comment : Nat
  shop : Nat
deriving DecidableEq, Repr

def initStats : Stats :=
  ⟨0, 0, 0, ⟨0, 0, 0⟩, ⟨0, 0, 0⟩, ⟨0, 0, 0⟩, 0, 0, 0⟩

def bumpSpider (sc : SpiderCounters) (success : Bool) : SpiderCounters :=
  { requests := sc.requests + 1,
    success := if success then sc.success + 1 else sc.success,
    fail := if success then sc.fail else sc.fail + 1 }

/-- `update_request_stats(success, spider_name)`. -/
def updateRequestStats (s : Stats) (success : Bool)
    (spiderName : Option String) : Stats :=
  let s₁ := { s with total_requests := s.total_requests + 1 }
  let s₂ :=
    if success then { s₁ with success_requests := s₁.success_requests + 1 }
    else { s₁ with failed_requests := s₁.failed_requests + 1 }
  match spiderName with
  | none => s₂
  | some n =>
    if n = "taobao" then { s₂ with taobao := bumpSpider s₂.taobao success }
    else if n = "jd" then { s₂ with jd := bumpSpider s₂.jd success }
    else if n = "pdd" then { s₂ with pdd := bumpSpider s₂.pdd success }
    else s₂

/-- `update_item_stats(item_type)`. -/
def updateItemStats (s : Stats) (itemType : String) : Stats :=
  if itemType = "product" then { s with product := s.product + 1 }
  else if itemType = "comment" then { s with comment := s.comment + 1 }
  else if itemType = "shop" then { s with shop := s.shop + 1 }
  else s

/-- A sequence of recorded request outcomes applied to the fresh counters. -/
def runStats (evs : List (Bool × Option String)) : Stats :=
  evs.foldl (fun s e => updateRequestStats s e.1 e.2) initStats

/-- The failure rate `_save_stats_to_redis` and `_check_alerts` compute:
`failed_requests / max(total_requests, 1)`. -/
def failureRate (s : Stats) : ℚ :=
  (s.failed_requests : ℚ) / (max s.total_requests 1 : Nat)

/-- Python's `round(x, 2)` on the exact rational value. -/
def roundTo2 (q : ℚ) : ℚ :=
  (round (q * 100) : ℤ) / 100

/-- The counters are consistent: the total equals successes plus failures,
globally and per tracked spider. -/
def statsConsistent (s : Stats) : Prop :=
  s.total_requests = s.success_requests + s.failed_requests ∧
  s.taobao.requests = s.taobao.success + s.taobao.fail ∧
  s.jd.requests = s.jd.success + s.jd.fail ∧
  s.pdd.requests = s.pdd.success + s.pdd.fail

theorem statsConsistent_update {s : Stats} (success : Bool)
    (spiderName : Option String) (h : statsConsistent s) :
    statsConsistent (updateRequestStats s success spiderName) := by
  obtain ⟨h₀, h₁, h₂, h₃⟩ := h
  cases spiderName with
  | none =>
    cases success <;>
      simp [updateRequestStats, statsConsistent, bumpSpider] <;> omega
  | some n =>
    by_cases ht : n = "taobao"
    · cases success <;>
        simp [updateRequestStats, statsConsistent, bumpSpider, ht] <;> omega
    · by_cases hj : n = "jd"
      · cases success <;>
          simp [updateRequestStats, statsConsistent, bumpSpider, ht, hj] <;>
            omega
      · by_cases hp : n = "pdd"
        · cases success <;>
            simp [updateRequestStats, statsConsistent, bumpSpider, ht, hj,
              hp] <;> omega
        · cases success <;>
            simp [updateRequestStats, statsConsistent, bumpSpider, ht, hj,
              hp] <;> omega

theorem statsConsistent_foldl (evs : List (Bool × Option String)) :
    ∀ s : Stats, statsConsistent s →
      statsConsistent
        (evs.foldl (fun s e => updateRequestStats s e.1 e.2) s) := by
  induction evs with
  | nil => exact fun s h => h
  | cons e rest ih =>
    intro s h
    exact ih _ (statsConsistent_update e.1 e.2 h)

theorem statsConsistent_runStats (evs : List (Bool × Option String)) :
    statsConsistent (runStats evs) :=
  statsConsistent_foldl evs initStats ⟨rfl, rfl, rfl, rfl⟩

/-- C10: after any sequence of `update_request_stats` calls from the fresh
counters, `total_requests = success_requests + failed_requests`, and each
tracked spider's `requests` equals its `success` plus its `fail`; moreover one
recording step preserves this consistency from any consistent state. -/
theorem C10_counter_invariant (evs : List (Bool × Option String))
    (s : Stats) (success : Bool) (spiderName : Option String)
    (h : statsConsistent s) :
    statsConsistent (runStats evs) ∧
    statsConsistent (updateRequestStats s success spiderName) :=
  ⟨statsConsistent_runStats evs, statsConsistent_update success spiderName h⟩

/-- Witness for `C10_counter_invariant` on a concrete trace and state. -/
theorem C10_counter_invariant_witness :
    statsConsistent (runStats [(false, some "jd"), (true, some "jd"),
      (true, none), (false, some "unknown")]) ∧
    statsConsistent (updateRequestStats
      (Stats.mk 3 1 2 ⟨0, 0, 0⟩ ⟨2, 1, 1⟩ ⟨0, 0, 0⟩ 0 0 0) true (some "pdd")) :=
  C10_counter_invariant
    [(false, some "jd"), (true, some "jd"), (true, none),
     (false, some "unknown")]
    (Stats.mk 3 1 2 ⟨0, 0, 0⟩ ⟨2, 1, 1⟩ ⟨0, 0, 0⟩ 0 0 0) true (some "pdd")
    (by constructor <;> simp)

/-- C7: the monitor's failure rate `failed / max(total, 1)` coincides with
`failed / (failed + succeeded)` over the outcomes recorded so far, and after
recording 7 failures and 3 successes it is 0.7, also after the 2-decimal
rounding applied when it is reported. -/
theorem C7_failure_rate (evs : List (Bool × Option String)) :
    failureRate (runStats evs) =
      ((runStats evs).failed_requests : ℚ) /
        (((runStats evs).failed_requests : ℚ) +
          ((runStats evs).success_requests : ℚ)) ∧
    failureRate (runStats
      (List.replicate 7 (false, none) ++ List.replicate 3 (true, none))) =
        7 / 10 ∧
    roundTo2 (failureRate (runStats
      (List.replicate 7 (false, none) ++ List.replicate 3 (true, none)))) =
        7 / 10 := by
  have hfail : (runStats (List.replicate 7 (false, none) ++
      List.replicate 3 (true, none))).failed_requests = 7 := by decide
  have htot : (runStats (List.replicate 7 (false, none) ++
      List.replicate 3 (true, none))).total_requests = 10 := by decide
  have hrate : failureRate (runStats (List.replicate 7 (false, none) ++
      List.replicate 3 (true, none))) = 7 / 10 := by
    unfold failureRate
    rw [hfail, htot]
    norm_num
  refine ⟨?_, hrate, ?_⟩
  · obtain ⟨h₀, -, -, -⟩ := statsConsistent_runStats evs
    unfold failureRate
    rcases Nat.eq_zero_or_pos (runStats evs).total_requests with hz | hp
    · have hf : (runStats evs).failed_requests = 0 := by omega
      have hs : (runStats evs).success_requests = 0 := by omega
      rw [hf, hs]
      norm_num
    · have hm : max (runStats evs).total_requests 1 =
          (runStats evs).total_requests := by omega
      rw [hm, h₀]
      push_cast
      ring_nf
  · rw [hrate]
    unfold roundTo2
    rw [show ((7 : ℚ) / 10 * 100) = ((70 : ℤ) : ℚ) by norm_num, round_intCast]
    norm_num

/-! ## Proxy-list loading behaviour -/

theorem loadLines_eq_filterMap (lines : List String) :
    ∀ pool : List Candidate,
      loadLines pool lines = pool ++ lines.filterMap parseLine := by
  induction lines with
  | nil => intro pool; simp [loadLines]
  | cons line rest ih =>
    intro pool
    unfold loadLines
    cases hp : parseLine line with
    | none => simp [List.filterMap_cons, hp, ih pool]
    | some c => simp [List.filterMap_cons, hp, ih (pool ++ [c])]

theorem parseLine_fields {line : String} {c : Candidate}
    (h : parseLine line = some c) :
    c.score = 100 ∧ c.fail_count = 0 ∧ c.success_count = 0 ∧
    c.last_used = none := by
  simp only [parseLine] at h
  split at h
  · simp only [Option.some.injEq] at h
    subst h
    exact ⟨rfl, rfl, rfl, rfl⟩
  · cases h

theorem parseLine_skips {line : String}
    (h : pyStrip line = "" ∨ pyStartsWith (pyStrip line) "#" = true) :
    parseLine line = none := by
  simp only [parseLine]
  rcases h with h | h
  · rw [if_neg]
    intro hcon
    exact hcon.1 h
  · rw [if_neg]
    intro hcon
    rw [h] at hcon
    cases hcon.2

/-- C8 counterexample: a malformed, non-blank, non-comment line is not
skipped — `_load_proxies_from_file` prefixes it with `http://` and admits it
as a fully scored candidate, and logs no per-entry warning. -/
theorem C8_load_counterexample :
    loadProxiesFromFile (some ["not a proxy !!"]) [] =
      [Candidate.mk "http://not a proxy !!" 100 none 0 0] := by
  decide

/-- C8 amended: loading never fails the process — a missing/unreadable file is
caught and leaves the pool as it was — and each line is handled totally:
blank lines and `#`-comment lines are dropped, and every other line (malformed
or not) is admitted with initial score 100 and zero counters, prefixed with
`http://` when it lacks a scheme; no per-entry warning path exists. -/
theorem C8_load_amended (pool : List Candidate) (lines : List String)
    (line : String) (c : Candidate) (hc : parseLine line = some c)
    (line' : String)
    (hskip : pyStrip line' = "" ∨ pyStartsWith (pyStrip line') "#" = true) :
    loadProxiesFromFile none pool = pool ∧
    loadProxiesFromFile (some lines) pool =
      pool ++ lines.filterMap parseLine ∧
    (c.score = 100 ∧ c.fail_count = 0 ∧ c.success_count = 0) ∧
    parseLine line' = none :=
  ⟨rfl, loadLines_eq_filterMap lines pool,
    ⟨(parseLine_fields hc).1, (parseLine_fields hc).2.1,
      (parseLine_fields hc).2.2.1⟩,
    parseLine_skips hskip⟩

/-- Witness for `C8_load_amended` on a concrete mixed line list. -/
theorem C8_load_amended_witness :
    loadProxiesFromFile none [] = [] ∧
    loadProxiesFromFile (some ["# note", "1.2.3.4:8080"]) [] =
      [] ++ (["# note", "1.2.3.4:8080"].filterMap parseLine) ∧
    ((Candidate.mk "http://1.2.3.4:8080" 100 none 0 0).score = 100 ∧
      (Candidate.mk "http://1.2.3.4:8080" 100 none 0 0).fail_count = 0 ∧
      (Candidate.mk "http://1.2.3.4:8080" 100 none 0 0).success_count = 0) ∧
    parseLine "# note" = none :=
  C8_load_amended [] ["# note", "1.2.3.4:8080"] "1.2.3.4:8080"
    (Candidate.mk "http://1.2.3.4:8080" 100 none 0 0) (by decide)
    "# note" (Or.inr (by decide))

/-! ## Cookie pool persistence (`src/utils/anti_crawler.py`) -/

inductive Platform where
  | taobao
  | jd
  | pdd
deriving DecidableEq, Repr

/-- A cookie bundle produced by `_generate_platform_cookies`: each generator
emits its platform's fixed cookie-name list filled with fresh random strings.
The random draws are abstracted by a supply index, so a bundle is identified
by its platform and the draw that produced it. -/
structure CookieBundle where
  platform : Platform
  gen : Nat
deriving DecidableEq, Repr

/-- One platform's slot of `cookie_store`. -/
structure PlatformCookies where
  cookies_pool : List CookieBundle
  current_idx : Nat
  expire_time : ℚ
deriving DecidableEq, Repr

/-- The whole `cookie_store` plus the abstract random-supply position. -/
structure CookieStore where
  taobao : PlatformCookies
  jd : PlatformCookies
  pdd : PlatformCookies
  nextGen : Nat
deriving DecidableEq, Repr

/-- The store `__init__` builds before calling `load_cookies`: empty pools,
index 0, `expire_time` 0. -/
def initCookieStore : CookieStore :=
  ⟨⟨[], 0, 0⟩, ⟨[], 0, 0⟩, ⟨[], 0, 0⟩, 0⟩

/-- `[self._generate_platform_cookies(platform) for _ in range(3)]`. -/
def genPool (p : Platform) (g : Nat) : List CookieBundle :=
  [⟨p, g⟩, ⟨p, g + 1⟩, ⟨p, g + 2⟩]

def getPlatform (st : CookieStore) : Platform → PlatformCookies
  | .taobao => st.taobao
  | .jd => st.jd
  | .pdd => st.pdd

def setPlatform (st : CookieStore) : Platform → PlatformCookies → CookieStore
  | .taobao, info => { st with taobao := info }
  | .jd, info => { st with jd := info }
  | .pdd, info => { st with pdd := info }

/-- The states the persisted `cookie_store.pkl` can be in. Corruption splits
by which exception `pickle.load` raises: `corruptCaught` stands for content
raising one of the caught deserialization errors (`EOFError`,
`pickle.UnpicklingError`), `corruptUncaught` for content whose load raises an
exception outside the caught tuple — per the pickle documentation, e.g. an
`AttributeError` or `ImportError` from a GLOBAL opcode naming a missing
attribute. -/
inductive CookieFile where
  | absent
  | empty
  | corruptCaught
  | corruptUncaught
  | valid (store : CookieStore)
deriving DecidableEq, Repr

/-- `load_cookies`: an absent or empty file is skipped by the
`os.path.exists` / `getsize` guard, leaving the defaults; a valid pickle
replaces the store; a caught deserialization error falls back to generating a
pool of 3 fresh bundles per platform with an 8-hour expiry. An exception
outside the caught tuple is not handled: it propagates out of `load_cookies`
(and out of `AntiCrawler.__init__`, which no caller wraps), modelled as
`none`. -/
def loadCookies (file : CookieFile) (now : ℚ) (st : CookieStore) :
    Option CookieStore :=
  match file with
  | .absent => some st
  | .empty => some st
  | .valid s => some s
  | .corruptCaught =>
    some
      { taobao := ⟨genPool .taobao st.nextGen, st.taobao.current_idx,
          now + 3600 * 8⟩,
        jd := ⟨genPool .jd (st.nextGen + 3), st.jd.current_idx,
          now + 3600 * 8⟩,
        pdd := ⟨genPool .pdd (st.nextGen + 6), st.pdd.current_idx,
          now + 3600 * 8⟩,
        nextGen := st.nextGen + 9 }
  | .corruptUncaught => none

/-- `_get_valid_cookies`: regenerate the platform's pool when it is empty or
past its expiry (3 fresh bundles, 8-hour expiry, index reset to 0), then
return the bundle at `current_idx` and advance the index round-robin. Reading
past the end of a non-regenerated pool is Python's uncaught `IndexError`,
modelled as `none`. -/
def getValidCookies (st : CookieStore) (p : Platform) (now : ℚ) :
    Option (CookieBundle × CookieStore) :=
  let info := getPlatform st p
  if info.cookies_pool = [] ∨ info.expire_time < now then
    let pool := genPool p st.nextGen
    let b := pool.getD 0 ⟨p, st.nextGen⟩
    some (b, setPlatform { st with nextGen := st.nextGen + 3 } p
      ⟨pool, (0 + 1) % pool.length, now + 3600 * 8⟩)
  else
    if info.current_idx < info.cookies_pool.length then
      some (info.cookies_pool.getD info.current_idx ⟨p, 0⟩,
        setPlatform st p
          { info with current_idx :=
              (info.current_idx + 1) % info.cookies_pool.length })
    else
      none

theorem getValidCookies_fresh (p : Platform) (st : CookieStore) (now : ℚ)
    (hp : getPlatform st p = ⟨[], 0, 0⟩ ∨
      ∃ g e, getPlatform st p = ⟨genPool p g, 0, e⟩) :
    ∃ g' st', getValidCookies st p now = some (⟨p, g'⟩, st') := by
  rcases hp with hp | ⟨g, e, hp⟩
  · have h : getValidCookies st p now = some (⟨p, st.nextGen⟩,
        setPlatform { st with nextGen := st.nextGen + 3 } p
          ⟨genPool p st.nextGen, (0 + 1) % (genPool p st.nextGen).length,
            now + 3600 * 8⟩) := by
      simp only [getValidCookies, hp]
      rw [if_pos (Or.inl trivial)]
      rfl
    exact ⟨st.nextGen, _, h⟩
  · by_cases hlt : e < now
    · have h : getValidCookies st p now = some (⟨p, st.nextGen⟩,
          setPlatform { st with nextGen := st.nextGen + 3 } p
            ⟨genPool p st.nextGen, (0 + 1) % (genPool p st.nextGen).length,
              now + 3600 * 8⟩) := by
        simp only [getValidCookies, hp]
        rw [if_pos (Or.inr hlt)]
        rfl
      exact ⟨st.nextGen, _, h⟩
    · have h : getValidCookies st p now = some (⟨p, g⟩,
          setPlatform st p
            ⟨genPool p g, (0 + 1) % (genPool p g).length, e⟩) := by
        simp only [getValidCookies, hp]
        rw [if_neg (by
          rw [not_or]
          exact ⟨by simp [genPool], hlt⟩)]
        rw [if_pos (by simp [genPool])]
        rfl
      exact ⟨g, _, h⟩

/-- C9 counterexample: a persisted file whose deserialization raises an
exception outside the caught `(FileNotFoundError, EOFError, UnpicklingError)`
tuple — e.g. an `AttributeError` from a GLOBAL opcode naming a missing
attribute — makes `load_cookies` itself raise: the load does not return, so
the best-effort guarantee does not cover every corrupted file state. -/
theorem C9_cookie_fallback_counterexample :
    loadCookies CookieFile.corruptUncaught 0 initCookieStore = none := rfl

/-- C9 amended: loading the persisted cookie pool is best-effort only for the
caught error classes — an absent or empty file leaves the fresh defaults and a
deserialization failure raising a caught `EOFError`/`UnpicklingError`
regenerates the pools, after which the next cookie request always succeeds
with a freshly generated bundle for the requested platform; but corruption
whose deserialization raises an exception outside the caught tuple propagates
fatally out of the load. -/
theorem C9_cookie_fallback (f : CookieFile) (hf : ∀ s, f ≠ CookieFile.valid s)
    (hu : f ≠ CookieFile.corruptUncaught) (t0 now : ℚ) (p : Platform) :
    (∃ st, loadCookies f t0 initCookieStore = some st ∧
      ∃ g st', getValidCookies st p now = some (CookieBundle.mk p g, st')) ∧
    loadCookies CookieFile.corruptUncaught t0 initCookieStore = none := by
  refine ⟨?_, rfl⟩
  cases f with
  | valid s => exact absurd rfl (hf s)
  | corruptUncaught => exact absurd rfl hu
  | absent =>
    refine ⟨initCookieStore, rfl, ?_⟩
    apply getValidCookies_fresh
    exact Or.inl (by cases p <;> rfl)
  | empty =>
    refine ⟨initCookieStore, rfl, ?_⟩
    apply getValidCookies_fresh
    exact Or.inl (by cases p <;> rfl)
  | corruptCaught =>
    refine ⟨_, rfl, ?_⟩
    apply getValidCookies_fresh
    cases p with
    | taobao => exact Or.inr ⟨0, t0 + 3600 * 8, rfl⟩
    | jd => exact Or.inr ⟨3, t0 + 3600 * 8, rfl⟩
    | pdd => exact Or.inr ⟨6, t0 + 3600 * 8, rfl⟩

/-- Witness for `C9_cookie_fallback`: a persisted file raising a caught
deserialization error at load time 0, with the first jd cookie request at
time 1. -/
theorem C9_cookie_fallback_witness :
    (∃ st, loadCookies CookieFile.corruptCaught 0 initCookieStore = some st ∧
      ∃ g st', getValidCookies st Platform.jd 1 =
        some (CookieBundle.mk Platform.jd g, st')) ∧
    loadCookies CookieFile.corruptUncaught 0 initCookieStore = none :=
  C9_cookie_fallback CookieFile.corruptCaught
    (fun _ h => CookieFile.noConfusion h) (fun h => CookieFile.noConfusion h)
    0 1 Platform.jd

end Crawler
